import Mathlib

/-!
Verification of the product-matching pipeline in `product-finder.py`.

The Python source is shallowly embedded: strings are modelled as Lean
`String` / `List Char` (ASCII-faithful for the inputs the program handles),
Python floats as `ℚ` (all arithmetic performed by the program is exact at
the magnitudes involved), Python dicts keyed by site name as association
lists in key-insertion order (the program only builds them from duplicate
free site lists), and the external SerpAPI collaborator as an
`Option (List Match)` argument (`none` models a null/failed response).
Regular expressions are specialised to the three fixed patterns the source
uses (a character-class deletion, a `keyword-\d{1,3}$` search, and
`\b\w+\b` token extraction) and implemented directly over character lists.
-/

namespace ProductFinder

abbrev Chars := List Char

def strL (s : String) : Chars := s.data

/-- Python `s.lower()` (ASCII case folding). -/
def lowerL (s : String) : Chars := s.data.map Char.toLower

/-- Python `pat in s` (substring containment; the empty pattern matches). -/
def containsL : Chars → Chars → Bool
  | pat, [] => pat.isEmpty
  | pat, c :: rest => pat.isPrefixOf (c :: rest) || containsL pat rest

/-- Helper for `splitOnL`: scans the list, closing the current chunk at each
non-overlapping occurrence of the separator.  Structurally recursive on a
fuel argument (kept at least the list length by the caller, so the fuel-out
case is unreachable) so that the kernel can evaluate it. -/
def splitOnGo (sep : Chars) : ℕ → Chars → Chars → List Chars
  | _, [], acc => [acc.reverse]
  | 0, l, acc => [acc.reverse ++ l]
  | fuel + 1, c :: rest, acc =>
    if sep.isPrefixOf (c :: rest) then
      acc.reverse :: splitOnGo sep fuel ((c :: rest).drop sep.length) []
    else
      splitOnGo sep fuel rest (c :: acc)

/-- Python `s.split(sep)` for a non-empty separator (the source never splits
on an empty separator). -/
def splitOnL (sep : Chars) (l : Chars) : List Chars :=
  match sep with
  | [] => [l]
  | _ => splitOnGo sep l.length l []

/-- Python `s.replace(pat, rep)`: non-overlapping left-to-right replacement. -/
def replaceL (pat rep l : Chars) : Chars := List.intercalate rep (splitOnL pat l)

/-- Python `s.strip(c)` for a single strip character. -/
def pyStrip (c : Char) (l : Chars) : Chars :=
  ((l.dropWhile (· == c)).reverse.dropWhile (· == c)).reverse

def isSpaceChar (c : Char) : Bool :=
  c == ' ' || c == '\t' || c == '\n' || c == '\r' || c == '\x0b' || c == '\x0c'

/-- Helper for `splitWsL`: `cur` holds the reversed current chunk. -/
def splitWsAux : Chars → Chars → List Chars
  | [], cur => if cur.isEmpty then [] else [cur.reverse]
  | c :: rest, cur =>
    if isSpaceChar c then
      if cur.isEmpty then splitWsAux rest [] else cur.reverse :: splitWsAux rest []
    else splitWsAux rest (c :: cur)

/-- Python `s.split()` with no argument: split on whitespace runs, dropping
empty chunks. -/
def splitWsL (l : Chars) : List Chars := splitWsAux l []

/-- Python `s.isdigit()` restricted to ASCII digits (all inputs the program
feeds it are ASCII). -/
def pyIsdigit (l : Chars) : Bool := !l.isEmpty && l.all Char.isDigit

/-! ## Site registry (`PRIMARY_SITES`, `SHOPPING_SITES`, `get_allowed_sites`,
`extract_domain`, `identify_site`) -/

def PRIMARY_SITES : List String := ["myntra", "slikk"]

def SHOPPING_SITES : List (String × List String) :=
  [("myntra", ["myntra.com"]),
   ("slikk", ["slikk.club"]),
   ("bewakoof", ["bewakoof.com"]),
   ("sassafras", ["sassafras.in"]),
   ("indian_garage_co", ["tigc.in"]),
   ("bearhouse", ["thebearhouse.com", "bearhouseindia.com", "thebearhouse.in"]),
   ("bearcompany", ["bearcompany.in", "thebearcompany.com"]),
   ("mydesignation", ["mydesignation.com"])]

def brand_mapping : List (String × String) :=
  [("bewakoof", "bewakoof"),
   ("sassafras", "sassafras"),
   ("indiangarageco", "indian_garage_co"),
   ("indiangaragecompany", "indian_garage_co"),
   ("theindiangaragecompany", "indian_garage_co"),
   ("theindiangaragecom", "indian_garage_co"),
   ("theindiangarageco", "indian_garage_co"),
   ("theindiangarage", "indian_garage_co"),
   ("bearhouse", "bearhouse"),
   ("thebearhouse", "bearhouse"),
   ("bearhouseindia", "bearhouse"),
   ("thebearhouseindia", "bearhouse"),
   ("bearcompany", "bearcompany"),
   ("thebearcompany", "bearcompany"),
   ("bear", "bearcompany"),
   ("bearco", "bearcompany"),
   ("mydesignation", "mydesignation"),
   ("designation", "mydesignation")]

/-- Python `brand_name.lower().replace(" ", "").replace("-", "").replace("_", "")` -/
def normalizeBrand (brand_name : String) : String :=
  String.mk ((lowerL brand_name).filter (fun c => !(c == ' ' || c == '-' || c == '_')))

def get_allowed_sites (brand_name : String) : List String :=
  let allowed := PRIMARY_SITES
  let brand_lower := normalizeBrand brand_name
  match (brand_mapping.find? (fun e => e.1 == brand_lower)).map (·.2) with
  | some brand_site =>
      if brand_site ≠ "" ∧ (SHOPPING_SITES.find? (fun e => e.1 == brand_site)).isSome
          ∧ brand_site ∉ allowed then
        allowed ++ [brand_site]
      else allowed
  | none => allowed

/-- Python `urlparse(url.lower()).netloc.replace('www.', '')`: the text after the
first `://` up to the next `/`, `?` or `#`, with every `www.` deleted. -/
def extract_domain (url : String) : Chars :=
  let l := lowerL url
  match splitOnL (strL "://") l with
  | _ :: after :: _ =>
      let netloc := after.takeWhile (fun c => !(c == '/' || c == '?' || c == '#'))
      (splitOnL (strL "www.") netloc).flatten
  | _ => []

/-- First registry entry (in `SHOPPING_SITES` order) one of whose domain
patterns occurs in the domain or in the whole lowercased URL. -/
def identify_site (url : String) : Option String :=
  let domain := extract_domain url
  let ul := lowerL url
  (SHOPPING_SITES.find? (fun e =>
    e.2.any (fun p => containsL (strL p) domain || containsL (strL p) ul))).map (·.1)

/-! ## Price extraction (`extract_price_from_match`) -/

/-- Shape of `match_data.get("price", {})`.  `pdict` carries the `value` and
`extracted_value` fields with `""` standing for an absent (or falsy) field;
`extractedValue` holds the `str()` rendering of the raw field.  `pother`
covers any non-dict, non-string payload (e.g. an absent field defaulting to
`{}`, or a JSON null). -/
inductive PricePayload where
  | pstr (s : String)
  | pdict (value : String) (extractedValue : String)
  | pother
deriving DecidableEq, Repr

/-- Character class of `re.sub(r'[‚ÇπRs.,\s*INR]', '', ., re.IGNORECASE)`. -/
def isPriceNoise (c : Char) : Bool :=
  c == '‚' || c == 'Ç' || c == 'π' || c == 'R' || c == 'r' || c == 'S' || c == 's' ||
  c == '.' || c == ',' || c == '*' || c == 'I' || c == 'i' || c == 'N' || c == 'n' ||
  isSpaceChar c

def cleanPrice (s : String) : Chars := s.data.filter (fun c => !isPriceNoise c)

def PRICE_SENTINEL : String := "Price not displayed in listing"

/-- Source test `value and value not in ["N/A", "", "null"]` -/
def priceFieldUsable (s : String) : Bool :=
  !(s == "") && !(s == "N/A") && !(s == "null")

/-- Source test `cleaned and cleaned.replace('.', '').isdigit()` -/
def cleanedNumeric (s : String) : Bool :=
  !(cleanPrice s).isEmpty && pyIsdigit ((cleanPrice s).filter (fun c => !(c == '.')))

def extract_price_from_match (p : PricePayload) : String :=
  match p with
  | .pdict value extractedValue =>
      if priceFieldUsable value && cleanedNumeric value then
        String.mk (cleanPrice value)
      else if priceFieldUsable extractedValue then
        extractedValue
      else PRICE_SENTINEL
  | .pstr s =>
      if priceFieldUsable s && cleanedNumeric s then String.mk (cleanPrice s)
      else PRICE_SENTINEL
  | .pother => PRICE_SENTINEL

/-! ## Colours and title similarity -/

def COLOR_LIST : List String :=
  ["black", "white", "blue", "red", "green", "yellow", "pink", "purple",
   "orange", "brown", "grey", "gray", "beige", "navy", "olive", "maroon",
   "silver", "gold", "cream", "khaki", "tan", "teal", "burgundy", "mint",
   "lavender", "coral", "peach", "mustard", "charcoal", "rose"]

def extract_colors_from_title (title : String) : List String :=
  COLOR_LIST.filter (fun c => containsL (strL c) (lowerL title))

def STOP_WORDS : List String :=
  ["the", "a", "an", "and", "or", "but", "with", "for", "on", "in", "at", "to",
   "buy", "shop", "online"]

def isWordChar (c : Char) : Bool := c.isAlphanum || c == '_'

/-- Helper for `wordTokens`: `cur` holds the reversed current run. -/
def wordTokensAux : Chars → Chars → List String
  | [], cur => if cur.isEmpty then [] else [String.mk cur.reverse]
  | c :: rest, cur =>
    if isWordChar c then wordTokensAux rest (c :: cur)
    else if cur.isEmpty then wordTokensAux rest []
    else String.mk cur.reverse :: wordTokensAux rest []

/-- Python `re.findall(r'\b\w+\b', s)`: the maximal runs of word characters. -/
def wordTokens (l : Chars) : List String := wordTokensAux l []

/-- Source expression `set(re.findall(r'\b\w+\b', s)) - stop_words` -/
def keywordSet (l : Chars) : Finset String :=
  (wordTokens l).toFinset \ STOP_WORDS.toFinset

/-- The `color_bonus` computed by `calculate_title_similarity` (both
arguments are already-lowercased titles in the source; colour extraction
lowercases again, so the same function is applied here). -/
def colorBonus (origTitle foundTitle : String) : ℚ :=
  let origColors := extract_colors_from_title origTitle
  let foundColors := extract_colors_from_title foundTitle
  if origColors ≠ [] then
    if origColors.any (fun c => foundColors.contains c) then 15
    else if foundColors ≠ [] then -20
    else 0
  else 0

def calculate_title_similarity (original_title found_title : String) : ℚ :=
  if original_title = "" ∨ found_title = "" then 0
  else if keywordSet (lowerL original_title) = ∅ then 0
  else
    min 100 (max 0
      (((keywordSet (lowerL original_title) ∩ keywordSet (lowerL found_title)).card : ℚ) /
          ((keywordSet (lowerL original_title)).card : ℚ) * 100 +
        colorBonus original_title found_title))

/-! ## Brand verification (`check_brand_relaxed_match`) -/

/-- One item of the provider's `visual_matches` list. -/
structure Match where
  link : String
  title : String
  source : String
  price : PricePayload
deriving DecidableEq, Repr

def check_brand_relaxed_match (m : Match) (target_brand : String) (site_key : String) : Bool :=
  let title := lowerL m.title
  let link := lowerL m.link
  let source := lowerL m.source
  if site_key ≠ "" ∧ site_key ∉ PRIMARY_SITES then true
  else
    let target_lower := lowerL target_brand
    let brand_keywords :=
      splitWsL (replaceL (strL "_") (strL " ") (replaceL (strL "-") (strL " ") target_lower))
    let baseVariations :=
      [target_lower.filter (fun c => !(c == ' ')),
       replaceL (strL " ") (strL "-") target_lower,
       replaceL (strL " ") (strL "_") target_lower,
       target_lower]
    let multiWordVariations :=
      if 1 < brand_keywords.length then
        let withoutThe :=
          if brand_keywords.head? = some (strL "the") then
            let joined := List.intercalate (strL " ") (brand_keywords.drop 1)
            [joined, joined.filter (fun c => !(c == ' '))]
          else []
        brand_keywords.flatten :: withoutThe
      else []
    let bearVariations :=
      if containsL (strL "bear") target_lower then
        [strL "bear", strL "bearhouse", strL "bear house", strL "thebearhouse",
         strL "the bear house", strL "bearcompany", strL "bear company",
         strL "thebearcompany", strL "the bear company"]
      else []
    let bewakoofVariations :=
      if containsL (strL "bewakoof") target_lower then [strL "bewakoof", strL "bwkf"] else []
    let tigcVariations :=
      if containsL (strL "indian") target_lower ∧ containsL (strL "garage") target_lower then
        [strL "indiangarage", strL "indian garage", strL "tigc"]
      else []
    let variations :=
      baseVariations ++ multiWordVariations ++ bearVariations ++ bewakoofVariations ++
        tigcVariations
    let combined := title ++ strL " " ++ link ++ strL " " ++ source
    variations.any (fun v => !v.isEmpty && decide (2 < v.length) && containsL v combined)

/-! ## URL validation (`is_valid_product_url`) -/

def INVALID_PATTERNS : List String :=
  ["/collections/", "/collection/", "/category/", "/categories/",
   "/search", "?search=", "/s?", "/find/",
   "/brand/", "/brands/", "/sale/", "/deals/",
   "/all-products", "/shop?",
   "/filter", "/sort=",
   "?page=", "&page=",
   "/men/", "/women/", "/kids/", "/unisex/",
   "/clothing/", "/accessories/", "/footwear/"]

def CATEGORY_KEYWORDS : List String :=
  ["hoodies", "tshirts", "shirts", "jeans", "dresses", "kurtas",
   "pants", "shorts", "jackets", "sweaters", "sweatshirts",
   "tops", "bottoms", "skirts", "trousers"]

/-- Source expression `url_lower.split('/p/')[-1].strip('/')` -/
def bewakoofSlug (url_lower : Chars) : Chars :=
  pyStrip '/' ((splitOnL (strL "/p/") url_lower).getLastD [])

/-- Python `re.search(f"{keyword}-\\d{1,3}$", slug)` succeeds: some suffix of the
slug is `keyword` + `-` + one to three digits. -/
def keywordIdPattern (keyword : Chars) (slug : Chars) : Bool :=
  [1, 2, 3].any (fun k =>
    decide (k ≤ slug.length) &&
    (slug.drop (slug.length - k)).all Char.isDigit &&
    (keyword ++ strL "-").isSuffixOf (slug.take (slug.length - k)))

def categoryPageCheck (slug : Chars) : Bool :=
  CATEGORY_KEYWORDS.any (fun kw => keywordIdPattern (strL kw) slug)

def is_valid_product_url (url : String) : Bool :=
  let ul := lowerL url
  if INVALID_PATTERNS.any (fun p => containsL (strL p) ul) then false
  else if containsL (strL "bewakoof.com") ul then
    if containsL (strL "/p/") ul then
      let slug := bewakoofSlug ul
      if categoryPageCheck slug then false
      else
        let wordCount := (splitOnL (strL "-") slug).length
        if wordCount < 4 then false
        else
          let lastSegment := (splitOnL (strL "-") slug).getLastD []
          if pyIsdigit lastSegment then decide (5 ≤ lastSegment.length)
          else decide (6 ≤ wordCount)
    else containsL (strL "/product/") ul || containsL (strL "/buy") ul
  else if containsL (strL "myntra.com") ul then
    containsL (strL "/buy") ul || containsL (strL "/p/") ul
  else if containsL (strL "slikk.club") ul then
    -- the source checks `/shop`/`/product` remainders but falls through to
    -- `return True` in every branch
    if containsL (strL "/shop") ul || containsL (strL "/product") ul then
      let parts :=
        if containsL (strL "/shop") ul then splitOnL (strL "/shop") ul
        else splitOnL (strL "/product") ul
      if 1 < parts.length ∧ 1 < (pyStrip '/' (parts.getD 1 [])).length then true else true
    else true
  else if containsL (strL "mydesignation.com") ul then containsL (strL "/products/") ul
  else if containsL (strL "sassafras.in") ul then containsL (strL "/products/") ul
  else if containsL (strL "bearhouse") ul || containsL (strL "bearcompany") ul ||
      containsL (strL "thebearhouse") ul then
    containsL (strL "/products/") ul || containsL (strL "/product/") ul
  else if containsL (strL "tigc.in") ul then containsL (strL "/products/") ul
  else
    decide (3 ≤ ((splitOnL (strL "/") ul).filter
      (fun s => !s.isEmpty && !(s.head? == some '?'))).length)

/-! ## Candidate extraction and selection (`extract_product_info`) -/

structure Candidate where
  url : String
  price : String
  visualRank : ℕ
  similarity : ℚ
  title : String
deriving DecidableEq, Repr

structure SiteResult where
  url : String
  price : String
deriving DecidableEq, Repr

def notFoundSR : SiteResult := ⟨"Not Found", "Product not available on site"⟩

/-- Source variable `similarity_threshold`: 5 for the two marketplaces, 15 for brand sites. -/
def similarityThreshold (site_key : String) : ℚ :=
  if site_key ∈ PRIMARY_SITES then 5 else 15

/-- The filter chain applied to one enumerated match inside the
`for idx, match in enumerate(visual_matches, 1)` loop: returns the site key
and candidate if the match survives every skip/reject, `none` otherwise. -/
def surviving (target_brand : String) (allowed : List String) (original_title : String)
    (im : ℕ × Match) : Option (String × Candidate) :=
  if im.2.link = "" then none
  else
    match identify_site im.2.link with
    | none => none
    | some site_key =>
      if site_key ∉ allowed then none
      else if !check_brand_relaxed_match im.2 target_brand site_key then none
      else if !is_valid_product_url im.2.link then none
      else if calculate_title_similarity original_title im.2.title <
          similarityThreshold site_key then none
      else
        some (site_key,
          ⟨im.2.link, extract_price_from_match im.2.price, im.1,
           calculate_title_similarity original_title im.2.title, im.2.title⟩)

/-- Source dict entry `candidates[site_key]` after the extraction loop: the surviving matches
resolving to `site_key`, in provider rank order. -/
def candidatesFor (visual_matches : List Match) (target_brand : String)
    (allowed : List String) (original_title : String) (site_key : String) : List Candidate :=
  (visual_matches.enumFrom 1).filterMap (fun im =>
    match surviving target_brand allowed original_title im with
    | some (s, c) => if s = site_key then some c else none
    | none => none)

/-- Python `max(l, key=f)` on a non-empty list: first element attaining the
maximum key. -/
def pyMaxBy {β : Type} [LinearOrder β] (f : Candidate → β) : List Candidate → Option Candidate
  | [] => none
  | x :: xs => some (xs.foldl (fun best c => if f best < f c then c else best) x)

/-- Python `min(l, key=f)` on a non-empty list: first element attaining the
minimum key. -/
def pyMinBy {β : Type} [LinearOrder β] (f : Candidate → β) : List Candidate → Option Candidate
  | [] => none
  | x :: xs => some (xs.foldl (fun best c => if f c < f best then c else best) x)

/-- The brand-site selection key `x['similarity'] - (x['visual_rank'] * 5)`. -/
def brandSiteScore (c : Candidate) : ℚ := c.similarity - (c.visualRank : ℚ) * 5

/-- The `SiteResult` the extraction loop leaves for `site_key`: the initial
"Not Found" entry, or the best surviving candidate (marketplaces: lowest
visual rank; brand sites: highest `similarity - rank*5`). -/
def selectedFor (visual_matches : List Match) (target_brand : String)
    (allowed : List String) (original_title : String) (site_key : String) : SiteResult :=
  match (if site_key ∈ PRIMARY_SITES then
      pyMinBy (fun c => c.visualRank)
        (candidatesFor visual_matches target_brand allowed original_title site_key)
    else
      pyMaxBy brandSiteScore
        (candidatesFor visual_matches target_brand allowed original_title site_key)) with
  | none => notFoundSR
  | some c => ⟨c.url, c.price⟩

/-- Source function `extract_product_info` restricted to its per-site results (the
`brand_matches`/`rejected` counters only feed console output and are
omitted).  The result is the `results` dict: one entry per allowed site, in
`allowed_sites` order. -/
def extract_product_info (visual_matches : List Match) (target_brand : String)
    (allowed : List String) (original_title : String) : List (String × SiteResult) :=
  allowed.map (fun site_key =>
    (site_key, selectedFor visual_matches target_brand allowed original_title site_key))

/-! ## The two passes of `process_products` -/

structure Product where
  style_id : String
  brand : String
  product_title : String
  gender : String
  category : String
  min_price_rupees : String
  image : String
deriving DecidableEq, Repr

abbrev SiteResults := List (String × SiteResult)

/-- Python `site_results.get(site_key)`: first entry with the given key. -/
def alookup (site_key : String) (m : SiteResults) : Option SiteResult :=
  (m.find? (fun e => e.1 == site_key)).map (·.2)

def lookupUrl (site_key : String) (m : SiteResults) : Option String :=
  (alookup site_key m).map (·.url)

/-- Pass 1 body for one product: skipped products (no image) and failed
provider calls leave the empty mapping `{}`; otherwise the provider's
`visual_matches` go through `extract_product_info`. -/
def pass1Step (allowed : List String) (p : Product) (resp : Option (List Match)) :
    SiteResults :=
  if p.image = "" then []
  else
    match resp with
    | none => []
    | some visual_matches => extract_product_info visual_matches p.brand allowed p.product_title

/-- Source expression `[s for s in allowed_sites if existing_results.get(s, {}).get('url') == "Not Found"]` -/
def missingSites (allowed : List String) (m : SiteResults) : List String :=
  allowed.filter (fun s => lookupUrl s m == some "Not Found")

/-- One entry of the pass-2 merge loop: a missing site is overwritten only
if pass 2 resolved a URL there. -/
def mergeEntry (r2 : SiteResults) (missing : List String) (e : String × SiteResult) :
    String × SiteResult :=
  if e.1 ∈ missing then
    match alookup e.1 r2 with
    | some sr2 => if sr2.url ≠ "Not Found" then (e.1, sr2) else e
    | none => e
  else e

/-- The pass-2 merge loop over the whole existing mapping. -/
def mergeResults (m r2 : SiteResults) (missing : List String) : SiteResults :=
  m.map (mergeEntry r2 missing)

/-- Whether the pass-2 loop reaches the provider call for this product
(i.e. passes both `continue` guards). -/
def pass2Attempted (allowed : List String) (p : Product) (m : SiteResults) : Bool :=
  !(missingSites allowed m).isEmpty && !(p.image == "")

/-- Pass 2 body for one product, starting from its pass-1 results `m`. -/
def pass2Step (allowed : List String) (p : Product) (m : SiteResults)
    (resp2 : Option (List Match)) : SiteResults :=
  if (missingSites allowed m).isEmpty then m
  else if p.image = "" then m
  else
    match resp2 with
    | none => m
    | some visual_matches =>
        mergeResults m
          (extract_product_info visual_matches p.brand (missingSites allowed m) p.product_title)
          (missingSites allowed m)

/-- The product's final `site_results` after both passes. -/
def finalMapping (allowed : List String) (p : Product) (resp1 resp2 : Option (List Match)) :
    SiteResults :=
  pass2Step allowed p (pass1Step allowed p resp1) resp2

def mapKeys (m : SiteResults) : List String := m.map (·.1)

/-! ## Serialization (`create_csv_row`) and the coverage report -/

/-- The `{site}_url` column of `create_csv_row`. -/
def siteUrlCell (site_key : String) (m : SiteResults) : String :=
  match alookup site_key m with
  | some sr => sr.url
  | none => "Not Found"

/-- The `{site}_price` column of `create_csv_row`. -/
def sitePriceCell (site_key : String) (m : SiteResults) : String :=
  match alookup site_key m with
  | some sr =>
      if sr.url ≠ "Not Found" ∧ sr.price = PRICE_SENTINEL then "Check site for price"
      else sr.price
  | none => "Product not available on site"

def COVERAGE_THRESHOLD : ℚ := 1/2

/-- Source test `r['site_results'].get(site_key, {}).get('url') != "Not Found"` -/
def siteFoundIn (site_key : String) (m : SiteResults) : Bool :=
  !(lookupUrl site_key m == some "Not Found")

def foundCount (site_key : String) (rs : List SiteResults) : ℕ :=
  (rs.filter (siteFoundIn site_key)).length

/-- Source expression `found_count / len(products) if len(products) > 0 else 0` -/
def coverageOf (site_key : String) (rs : List SiteResults) : ℚ :=
  if rs.length = 0 then 0 else (foundCount site_key rs : ℚ) / (rs.length : ℚ)

/-- Source test `coverage >= COVERAGE_THRESHOLD` (the `✅` status; its negation is the
below-threshold flag). -/
def siteMeetsThreshold (site_key : String) (rs : List SiteResults) : Bool :=
  decide (COVERAGE_THRESHOLD ≤ coverageOf site_key rs)

/-! ## Concrete data used by witnesses and counterexamples -/

/-- A catalog product of the brand the program is configured for. -/
def exProduct : Product :=
  ⟨"S1", "Bewakoof", "Men Navy Oversized Hoodie", "Men", "Hoodie", "999",
   "http://img.example/1.jpg"⟩

/-- A product whose catalog row has an empty `first_image_url`. -/
def exNoImageProduct : Product :=
  ⟨"S2", "Bewakoof", "Plain Tee", "Men", "Tshirt", "499", ""⟩

/-- A category-page match (rejected by URL validation). -/
def exMatch1 : Match :=
  ⟨"https://www.bewakoof.com/p/blue-hoodies-16", "Blue Hoodie", "Bewakoof", .pother⟩

/-- A valid brand-site product match. -/
def exMatch2 : Match :=
  ⟨"https://www.bewakoof.com/p/mens-navy-oversized-hoodie-102345",
   "Men Navy Oversized Hoodie", "Bewakoof", .pdict "‚Çπ660*" "660"⟩

/-- A valid marketplace match with no price in its payload. -/
def exMatch3 : Match :=
  ⟨"https://www.myntra.com/10001/buy", "Bewakoof Men Navy Oversized Hoodie", "Myntra",
   .pdict "" ""⟩

/-- A second, lower-ranked marketplace match. -/
def exMatch4 : Match :=
  ⟨"https://www.myntra.com/10002/buy", "Bewakoof Men Navy Oversized Hoodie Blue", "Myntra",
   .pstr "Rs. 1,299"⟩

def exMatches : List Match := [exMatch1, exMatch2, exMatch3, exMatch4]

/-- A pass-2 match resolving the remaining site. -/
def exMatchesPass2 : List Match :=
  [⟨"https://slikk.club/shop/navy-hoodie", "Bewakoof Men Navy Oversized Hoodie", "Slikk",
    .pother⟩]

def exAllowed : List String := get_allowed_sites "Bewakoof"

/-! ## Association-list and selection lemmas -/

theorem alookup_map_self (g : String → SiteResult) (allowed : List String) (site : String)
    (h : site ∈ allowed) :
    alookup site (allowed.map (fun s => (s, g s))) = some (g site) := by
  induction allowed with
  | nil => cases h
  | cons a rest ih =>
    by_cases ha : a = site
    · subst ha
      simp [alookup, List.find?_cons_of_pos]
    · have hmem : site ∈ rest := by
        rcases List.mem_cons.mp h with h1 | h2
        · exact absurd h1.symm ha
        · exact h2
      have hne : (((a, g a)).1 == site) = false := by simp [ha]
      simpa [alookup, List.find?, hne] using ih hmem

theorem mem_map_pair (g : String → SiteResult) (allowed : List String) (s : String)
    (sr : SiteResult) (h : (s, sr) ∈ allowed.map (fun a => (a, g a))) :
    s ∈ allowed ∧ sr = g s := by
  obtain ⟨a, ha, heq⟩ := List.mem_map.mp h
  obtain ⟨h1, h2⟩ := Prod.mk.injEq .. ▸ heq
  subst h1
  exact ⟨ha, h2.symm⟩

theorem alookup_extract (vm : List Match) (tb : String) (allowed : List String) (ot : String)
    (site : String) (h : site ∈ allowed) :
    alookup site (extract_product_info vm tb allowed ot) =
      some (selectedFor vm tb allowed ot site) :=
  alookup_map_self _ allowed site h

theorem mapKeys_extract (vm : List Match) (tb : String) (allowed : List String) (ot : String) :
    mapKeys (extract_product_info vm tb allowed ot) = allowed := by
  simp [mapKeys, extract_product_info, Function.comp_def]

theorem alookup_mem (site : String) (m : SiteResults) (sr : SiteResult)
    (h : alookup site m = some sr) : (site, sr) ∈ m := by
  unfold alookup at h
  cases hf : m.find? (fun e => e.1 == site) with
  | none => rw [hf] at h; cases h
  | some e =>
    rw [hf] at h
    have he2 : e.2 = sr := by simpa using h
    have he1 : e.1 = site := by simpa using List.find?_some hf
    have hmem := List.mem_of_find?_eq_some hf
    have heq : (site, sr) = e := by rw [← he1, ← he2]
    rw [heq]
    exact hmem

/-- The fold implementing Python `max(key=f)` keeps the first element
attaining the maximum key. -/
theorem foldlMaxFirst {β : Type} [LinearOrder β] (f : Candidate → β) :
    ∀ (xs : List Candidate) (x : Candidate),
      (xs.foldl (fun best c => if f best < f c then c else best) x = x ∧
        ∀ c ∈ xs, f c ≤ f x) ∨
      (∃ (i : ℕ) (c : Candidate), xs[i]? = some c ∧
        xs.foldl (fun best c => if f best < f c then c else best) x = c ∧ f x < f c ∧
        (∀ j : ℕ, j < i → ∀ d, xs[j]? = some d → f d < f c) ∧ (∀ d ∈ xs, f d ≤ f c))
  | [], x => Or.inl ⟨rfl, by simp⟩
  | y :: ys, x => by
    simp only [List.foldl_cons]
    by_cases hxy : f x < f y
    · rw [if_pos hxy]
      rcases foldlMaxFirst f ys y with ⟨heq, hall⟩ | ⟨i, c, hi, heq, hlt, hfirst, hall⟩
      · refine Or.inr ⟨0, y, by simp, heq, hxy, ?_, ?_⟩
        · intro j hj; omega
        · intro d hd
          rcases List.mem_cons.mp hd with h | h
          · subst h; exact le_refl _
          · exact hall d h
      · refine Or.inr ⟨i + 1, c, by simpa using hi, heq, lt_trans hxy hlt, ?_, ?_⟩
        · intro j hj d hd
          cases j with
          | zero =>
            have : d = y := Eq.symm (by simpa using hd)
            subst this; exact hlt
          | succ j' =>
            exact hfirst j' (by omega) d (by simpa using hd)
        · intro d hd
          rcases List.mem_cons.mp hd with h | h
          · subst h; exact le_of_lt hlt
          · exact hall d h
    · rw [if_neg hxy]
      rcases foldlMaxFirst f ys x with ⟨heq, hall⟩ | ⟨i, c, hi, heq, hlt, hfirst, hall⟩
      · refine Or.inl ⟨heq, ?_⟩
        intro d hd
        rcases List.mem_cons.mp hd with h | h
        · subst h; exact le_of_not_lt hxy
        · exact hall d h
      · refine Or.inr ⟨i + 1, c, by simpa using hi, heq, hlt, ?_, ?_⟩
        · intro j hj d hd
          cases j with
          | zero =>
            have : d = y := Eq.symm (by simpa using hd)
            subst this; exact lt_of_le_of_lt (le_of_not_lt hxy) hlt
          | succ j' =>
            exact hfirst j' (by omega) d (by simpa using hd)
        · intro d hd
          rcases List.mem_cons.mp hd with h | h
          · subst h; exact le_trans (le_of_not_lt hxy) (le_of_lt hlt)
          · exact hall d h

/-- The fold implementing Python `min(key=f)` keeps the first element
attaining the minimum key. -/
theorem foldlMinFirst {β : Type} [LinearOrder β] (f : Candidate → β) :
    ∀ (xs : List Candidate) (x : Candidate),
      (xs.foldl (fun best c => if f c < f best then c else best) x = x ∧
        ∀ c ∈ xs, f x ≤ f c) ∨
      (∃ (i : ℕ) (c : Candidate), xs[i]? = some c ∧
        xs.foldl (fun best c => if f c < f best then c else best) x = c ∧ f c < f x ∧
        (∀ j : ℕ, j < i → ∀ d, xs[j]? = some d → f c < f d) ∧ (∀ d ∈ xs, f c ≤ f d))
  | [], x => Or.inl ⟨rfl, by simp⟩
  | y :: ys, x => by
    simp only [List.foldl_cons]
    by_cases hxy : f y < f x
    · rw [if_pos hxy]
      rcases foldlMinFirst f ys y with ⟨heq, hall⟩ | ⟨i, c, hi, heq, hlt, hfirst, hall⟩
      · refine Or.inr ⟨0, y, by simp, heq, hxy, ?_, ?_⟩
        · intro j hj; omega
        · intro d hd
          rcases List.mem_cons.mp hd with h | h
          · subst h; exact le_refl _
          · exact hall d h
      · refine Or.inr ⟨i + 1, c, by simpa using hi, heq, lt_trans hlt hxy, ?_, ?_⟩
        · intro j hj d hd
          cases j with
          | zero =>
            have : d = y := Eq.symm (by simpa using hd)
            subst this; exact hlt
          | succ j' =>
            exact hfirst j' (by omega) d (by simpa using hd)
        · intro d hd
          rcases List.mem_cons.mp hd with h | h
          · subst h; exact le_of_lt hlt
          · exact hall d h
    · rw [if_neg hxy]
      rcases foldlMinFirst f ys x with ⟨heq, hall⟩ | ⟨i, c, hi, heq, hlt, hfirst, hall⟩
      · refine Or.inl ⟨heq, ?_⟩
        intro d hd
        rcases List.mem_cons.mp hd with h | h
        · subst h; exact le_of_not_lt hxy
        · exact hall d h
      · refine Or.inr ⟨i + 1, c, by simpa using hi, heq, hlt, ?_, ?_⟩
        · intro j hj d hd
          cases j with
          | zero =>
            have : d = y := Eq.symm (by simpa using hd)
            subst this; exact lt_of_lt_of_le hlt (le_of_not_lt hxy)
          | succ j' =>
            exact hfirst j' (by omega) d (by simpa using hd)
        · intro d hd
          rcases List.mem_cons.mp hd with h | h
          · subst h; exact le_trans (le_of_lt hlt) (le_of_not_lt hxy)
          · exact hall d h

theorem pyMaxBy_spec {β : Type} [LinearOrder β] (f : Candidate → β) (l : List Candidate)
    (hl : l ≠ []) :
    ∃ (i : ℕ) (b : Candidate), l[i]? = some b ∧ pyMaxBy f l = some b ∧ (∀ c ∈ l, f c ≤ f b) ∧
      ∀ j : ℕ, j < i → ∀ d, l[j]? = some d → f d < f b := by
  cases l with
  | nil => exact absurd rfl hl
  | cons x xs =>
    rcases foldlMaxFirst f xs x with ⟨heq, hall⟩ | ⟨i, c, hi, heq, hlt, hfirst, hall⟩
    · refine ⟨0, x, by simp, by simp [pyMaxBy, heq], ?_, by intro j hj d hd; omega⟩
      intro c hc
      rcases List.mem_cons.mp hc with h | h
      · subst h; exact le_refl _
      · exact hall c h
    · refine ⟨i + 1, c, by simpa using hi, by simp [pyMaxBy, heq], ?_, ?_⟩
      · intro d hd
        rcases List.mem_cons.mp hd with h | h
        · subst h; exact le_of_lt hlt
        · exact hall d h
      · intro j hj d hd
        cases j with
        | zero =>
          have : d = x := Eq.symm (by simpa using hd)
          subst this; exact hlt
        | succ j' =>
          exact hfirst j' (by omega) d (by simpa using hd)

theorem pyMinBy_spec {β : Type} [LinearOrder β] (f : Candidate → β) (l : List Candidate)
    (hl : l ≠ []) :
    ∃ (i : ℕ) (b : Candidate), l[i]? = some b ∧ pyMinBy f l = some b ∧ (∀ c ∈ l, f b ≤ f c) ∧
      ∀ j : ℕ, j < i → ∀ d, l[j]? = some d → f b < f d := by
  cases l with
  | nil => exact absurd rfl hl
  | cons x xs =>
    rcases foldlMinFirst f xs x with ⟨heq, hall⟩ | ⟨i, c, hi, heq, hlt, hfirst, hall⟩
    · refine ⟨0, x, by simp, by simp [pyMinBy, heq], ?_, by intro j hj d hd; omega⟩
      intro c hc
      rcases List.mem_cons.mp hc with h | h
      · subst h; exact le_refl _
      · exact hall c h
    · refine ⟨i + 1, c, by simpa using hi, by simp [pyMinBy, heq], ?_, ?_⟩
      · intro d hd
        rcases List.mem_cons.mp hd with h | h
        · subst h; exact le_of_lt hlt
        · exact hall d h
      · intro j hj d hd
        cases j with
        | zero =>
          have : d = x := Eq.symm (by simpa using hd)
          subst this; exact hlt
        | succ j' =>
          exact hfirst j' (by omega) d (by simpa using hd)

theorem pyMaxBy_mem {β : Type} [LinearOrder β] (f : Candidate → β) (l : List Candidate)
    (c : Candidate) (h : pyMaxBy f l = some c) : c ∈ l := by
  cases l with
  | nil => cases h
  | cons x xs =>
    rcases foldlMaxFirst f xs x with ⟨heq, _⟩ | ⟨i, b, hi, heq, _, _, _⟩
    · have : c = x := by simpa [pyMaxBy, heq] using h.symm
      subst this; exact List.mem_cons_self _ _
    · have : b = c := by simpa [pyMaxBy, heq] using h
      subst this
      exact List.mem_cons_of_mem _ (List.getElem?_mem hi)

theorem pyMinBy_mem {β : Type} [LinearOrder β] (f : Candidate → β) (l : List Candidate)
    (c : Candidate) (h : pyMinBy f l = some c) : c ∈ l := by
  cases l with
  | nil => cases h
  | cons x xs =>
    rcases foldlMinFirst f xs x with ⟨heq, _⟩ | ⟨i, b, hi, heq, _, _, _⟩
    · have : c = x := by simpa [pyMinBy, heq] using h.symm
      subst this; exact List.mem_cons_self _ _
    · have : b = c := by simpa [pyMinBy, heq] using h
      subst this
      exact List.mem_cons_of_mem _ (List.getElem?_mem hi)

/-! ## Merge and pass-2 structure lemmas -/

theorem alookup_cons_self (s : String) (e : String × SiteResult) (rest : SiteResults)
    (h : e.1 = s) : alookup s (e :: rest) = some e.2 := by
  unfold alookup
  rw [List.find?_cons_of_pos _ (by simp [h])]
  rfl

theorem alookup_cons_ne (s : String) (e : String × SiteResult) (rest : SiteResults)
    (h : e.1 ≠ s) : alookup s (e :: rest) = alookup s rest := by
  unfold alookup
  rw [List.find?_cons_of_neg _ (by simp [h])]

theorem mergeEntry_fst (r2 : SiteResults) (missing : List String) (e : String × SiteResult) :
    (mergeEntry r2 missing e).1 = e.1 := by
  unfold mergeEntry
  by_cases h : e.1 ∈ missing
  · simp only [h, if_true]
    cases alookup e.1 r2 with
    | none => rfl
    | some sr2 =>
      by_cases h2 : sr2.url ≠ "Not Found" <;> simp [h2]
  · simp [h]

theorem mapKeys_mergeResults (m r2 : SiteResults) (missing : List String) :
    mapKeys (mergeResults m r2 missing) = mapKeys m := by
  unfold mapKeys mergeResults
  rw [List.map_map]
  exact List.map_congr_left (fun e _ => mergeEntry_fst r2 missing e)

theorem alookup_mergeResults (m r2 : SiteResults) (missing : List String) (s : String) :
    alookup s (mergeResults m r2 missing) =
      (alookup s m).map (fun sr =>
        if s ∈ missing then
          match alookup s r2 with
          | some sr2 => if sr2.url ≠ "Not Found" then sr2 else sr
          | none => sr
        else sr) := by
  induction m with
  | nil => rfl
  | cons e rest ih =>
    have hfst := mergeEntry_fst r2 missing e
    have hmap : mergeResults (e :: rest) r2 missing =
        mergeEntry r2 missing e :: mergeResults rest r2 missing := rfl
    by_cases he : e.1 = s
    · rw [hmap, alookup_cons_self _ _ _ (hfst.trans he), alookup_cons_self _ _ _ he]
      simp only [Option.map_some']
      rw [← he]
      unfold mergeEntry
      by_cases h : e.1 ∈ missing
      · simp only [h, if_true]
        cases halo : alookup e.1 r2 with
        | none => simp
        | some sr2 =>
          by_cases h2 : sr2.url ≠ "Not Found" <;> simp [h2]
      · simp [h]
    · rw [hmap, alookup_cons_ne _ _ _ (fun hc => he (hfst.symm ▸ hc)),
        alookup_cons_ne _ _ _ he]
      exact ih

theorem mapKeys_pass2Step (allowed : List String) (p : Product) (m : SiteResults)
    (resp2 : Option (List Match)) : mapKeys (pass2Step allowed p m resp2) = mapKeys m := by
  unfold pass2Step
  by_cases h1 : (missingSites allowed m).isEmpty
  · simp [h1]
  · by_cases h2 : p.image = ""
    · simp [h1, h2]
    · cases resp2 with
      | none => simp [h1, h2]
      | some vm => simp [h1, h2, mapKeys_mergeResults]

/-- A site listed as missing really holds a "Not Found" URL. -/
theorem mem_missingSites (allowed : List String) (m : SiteResults) (s : String)
    (h : s ∈ missingSites allowed m) :
    s ∈ allowed ∧ lookupUrl s m = some "Not Found" := by
  have := List.mem_filter.mp h
  exact ⟨this.1, by simpa using this.2⟩

theorem missingSites_of_notFound (allowed : List String) (m : SiteResults) (s : String)
    (h1 : s ∈ allowed) (h2 : lookupUrl s m = some "Not Found") :
    s ∈ missingSites allowed m :=
  List.mem_filter.mpr ⟨h1, by simp [h2]⟩

/-! ## Candidate provenance and the url/price invariant -/

theorem surviving_some (tb : String) (allowed : List String) (ot : String) (im : ℕ × Match)
    (s : String) (c : Candidate) (h : surviving tb allowed ot im = some (s, c)) :
    identify_site c.url = some s ∧ c.url = im.2.link := by
  unfold surviving at h
  split at h
  · cases h
  split at h
  · cases h
  rename_i sk hid
  split at h
  · cases h
  split at h
  · cases h
  split at h
  · cases h
  split at h
  · cases h
  cases h
  exact ⟨hid, rfl⟩

theorem candidatesFor_url (vm : List Match) (tb : String) (allowed : List String) (ot : String)
    (site : String) (c : Candidate) (h : c ∈ candidatesFor vm tb allowed ot site) :
    identify_site c.url = some site := by
  unfold candidatesFor at h
  obtain ⟨im, _, hsurv⟩ := List.mem_filterMap.mp h
  cases hs : surviving tb allowed ot im with
  | none => rw [hs] at hsurv; cases hsurv
  | some sc =>
    rw [hs] at hsurv
    obtain ⟨s0, c0⟩ := sc
    by_cases heq : s0 = site
    · simp only [heq, if_true] at hsurv
      have hc : c0 = c := by simpa using hsurv
      subst hc
      exact heq ▸ (surviving_some tb allowed ot im s0 c0 hs).1
    · simp only [heq, if_false] at hsurv
      cases hsurv

theorem identify_site_notFound : identify_site "Not Found" = none := by decide

theorem candidatesFor_url_ne (vm : List Match) (tb : String) (allowed : List String)
    (ot : String) (site : String) (c : Candidate) (h : c ∈ candidatesFor vm tb allowed ot site) :
    c.url ≠ "Not Found" := by
  intro heq
  have hc := candidatesFor_url vm tb allowed ot site c h
  rw [heq, identify_site_notFound] at hc
  cases hc

/-- After any extraction/merge, a "Not Found" entry still carries the
"Product not available on site" price. -/
def resultsInv (m : SiteResults) : Prop :=
  ∀ e ∈ m, e.2.url = "Not Found" → e.2.price = "Product not available on site"

theorem resultsInv_extract (vm : List Match) (tb : String) (allowed : List String)
    (ot : String) : resultsInv (extract_product_info vm tb allowed ot) := by
  intro e he hurl
  obtain ⟨a, _, heq⟩ := List.mem_map.mp he
  rw [← heq] at hurl ⊢
  simp only at hurl ⊢
  unfold selectedFor at hurl ⊢
  cases hbest : (if a ∈ PRIMARY_SITES then
      pyMinBy (fun c => c.visualRank) (candidatesFor vm tb allowed ot a)
    else pyMaxBy brandSiteScore (candidatesFor vm tb allowed ot a)) with
  | none => rfl
  | some c =>
    rw [hbest] at hurl
    have hurl' : c.url = "Not Found" := hurl
    have hmem : c ∈ candidatesFor vm tb allowed ot a := by
      by_cases hp : a ∈ PRIMARY_SITES
      · rw [if_pos hp] at hbest; exact pyMinBy_mem _ _ _ hbest
      · rw [if_neg hp] at hbest; exact pyMaxBy_mem _ _ _ hbest
    exact absurd hurl' (candidatesFor_url_ne vm tb allowed ot a c hmem)

theorem resultsInv_merge (m r2 : SiteResults) (missing : List String)
    (hm : resultsInv m) : resultsInv (mergeResults m r2 missing) := by
  intro e' he' hurl
  obtain ⟨e, he, heq⟩ := List.mem_map.mp he'
  rw [← heq] at hurl ⊢
  unfold mergeEntry at hurl ⊢
  by_cases h : e.1 ∈ missing
  · rw [if_pos h] at hurl ⊢
    revert hurl
    cases halo : alookup e.1 r2 with
    | none =>
      intro hurl
      exact hm e he hurl
    | some sr2 =>
      intro hurl
      have hurl2 : (if sr2.url ≠ "Not Found" then (e.1, sr2) else e).2.url = "Not Found" :=
        hurl
      show (if sr2.url ≠ "Not Found" then (e.1, sr2) else e).2.price =
        "Product not available on site"
      by_cases h2 : sr2.url ≠ "Not Found"
      · rw [if_pos h2] at hurl2 ⊢
        exact absurd hurl2 h2
      · rw [if_neg h2] at hurl2 ⊢
        exact hm e he hurl2
  · rw [if_neg h] at hurl ⊢
    exact hm e he hurl

theorem resultsInv_pass1Step (allowed : List String) (p : Product)
    (resp : Option (List Match)) : resultsInv (pass1Step allowed p resp) := by
  unfold pass1Step
  by_cases h : p.image = ""
  · rw [if_pos h]; intro e he; cases he
  · rw [if_neg h]
    cases resp with
    | none => intro e he; cases he
    | some vm => exact resultsInv_extract vm p.brand allowed p.product_title

theorem resultsInv_pass2Step (allowed : List String) (p : Product) (m : SiteResults)
    (resp2 : Option (List Match)) (hm : resultsInv m) :
    resultsInv (pass2Step allowed p m resp2) := by
  unfold pass2Step
  by_cases h1 : (missingSites allowed m).isEmpty
  · simp only [h1, if_true]; exact hm
  · simp only [h1, Bool.false_eq_true, if_false]
    by_cases h2 : p.image = ""
    · rw [if_pos h2]; exact hm
    · rw [if_neg h2]
      cases resp2 with
      | none => exact hm
      | some vm => exact resultsInv_merge m _ _ hm

theorem resultsInv_finalMapping (allowed : List String) (p : Product)
    (resp1 resp2 : Option (List Match)) : resultsInv (finalMapping allowed p resp1 resp2) :=
  resultsInv_pass2Step allowed p _ resp2 (resultsInv_pass1Step allowed p resp1)

/-- Pass 2 leaves any site that is not in the missing list untouched. -/
theorem alookup_pass2Step_not_missing (allowed : List String) (p : Product) (m : SiteResults)
    (resp2 : Option (List Match)) (s : String) (hs : s ∉ missingSites allowed m) :
    alookup s (pass2Step allowed p m resp2) = alookup s m := by
  unfold pass2Step
  by_cases h1 : (missingSites allowed m).isEmpty
  · simp [h1]
  · by_cases h2 : p.image = ""
    · simp [h1, h2]
    · cases resp2 with
      | none => simp [h1, h2]
      | some vm =>
        simp only [h1, h2, Bool.false_eq_true, if_false, if_neg]
        rw [alookup_mergeResults]
        cases alookup s m with
        | none => rfl
        | some sr => simp [hs]

/-! ## Claim C4: price extraction result shape -/

/-- Follows the spec's words: a "numeric string" that "parses as a
non-negative number" — nonempty, made of digits with at most one decimal
point, and containing at least one digit. -/
def specNumericString (s : String) : Bool :=
  !s.data.isEmpty && s.data.all (fun c => c.isDigit || c == '.') &&
  decide ((s.data.filter (fun c => c == '.')).length ≤ 1) &&
  s.data.any Char.isDigit

theorem cleanPrice_all_digits (s : String) (h : cleanedNumeric s = true) :
    (cleanPrice s).all Char.isDigit = true := by
  unfold cleanedNumeric at h
  rw [Bool.and_eq_true] at h
  obtain ⟨_, h2⟩ := h
  have hfe : (cleanPrice s).filter (fun c => !(c == '.')) = cleanPrice s := by
    apply List.filter_eq_self.mpr
    intro c hc
    unfold cleanPrice at hc
    have hnn := List.of_mem_filter hc
    by_cases hcd : c = '.'
    · subst hcd
      simp [isPriceNoise] at hnn
    · simp [hcd]
  rw [hfe] at h2
  unfold pyIsdigit at h2
  rw [Bool.and_eq_true] at h2
  exact h2.2

/-- C4 counterexample: the payload `{"extracted_value": "abc"}` makes
`extract_price_from_match` return `"abc"`, which is neither a numeric
string nor the "Price not displayed in listing" sentinel. -/
theorem c4_extracted_value_unvalidated :
    extract_price_from_match (PricePayload.pdict "" "abc") = "abc" ∧
    specNumericString "abc" = false ∧
    extract_price_from_match (PricePayload.pdict "" "abc") ≠ PRICE_SENTINEL := by
  refine ⟨rfl, by decide, by decide⟩

/-- C4 (amended): `extract_price_from_match` returns the sentinel, or a
digits-only string from the validated display-value/plain-string paths, or
(dict payloads only) the raw `extracted_value` passed through without any
numeric validation. -/
theorem c4_amended_price_shape (p : PricePayload) :
    extract_price_from_match p = PRICE_SENTINEL ∨
    (extract_price_from_match p).data.all Char.isDigit = true ∨
    ∃ v e, p = PricePayload.pdict v e ∧ extract_price_from_match p = e := by
  cases p with
  | pother => exact Or.inl rfl
  | pstr s =>
    have hdef : extract_price_from_match (.pstr s) =
        (if priceFieldUsable s && cleanedNumeric s then String.mk (cleanPrice s)
         else PRICE_SENTINEL) := rfl
    by_cases hc : (priceFieldUsable s && cleanedNumeric s) = true
    · refine Or.inr (Or.inl ?_)
      rw [hdef, if_pos hc]
      rw [Bool.and_eq_true] at hc
      exact cleanPrice_all_digits s hc.2
    · exact Or.inl (by rw [hdef, if_neg hc])
  | pdict v e =>
    have hdef : extract_price_from_match (.pdict v e) =
        (if priceFieldUsable v && cleanedNumeric v then String.mk (cleanPrice v)
         else if priceFieldUsable e then e else PRICE_SENTINEL) := rfl
    by_cases hc : (priceFieldUsable v && cleanedNumeric v) = true
    · refine Or.inr (Or.inl ?_)
      rw [hdef, if_pos hc]
      rw [Bool.and_eq_true] at hc
      exact cleanPrice_all_digits v hc.2
    · by_cases he : priceFieldUsable e = true
      · exact Or.inr (Or.inr ⟨v, e, rfl, by rw [hdef, if_neg hc, if_pos he]⟩)
      · exact Or.inl (by rw [hdef, if_neg hc, if_neg he])

/-! ## Claim C7: similarity score bounds -/

/-- C7: `calculate_title_similarity` always lands in `[0, 100]`; it returns
0 when the original title's keyword set (after stopword removal) is empty;
and with no shared keywords and inapplicable colour bonus/penalty it
returns 0. -/
theorem c7_similarity_bounds (t1 t2 : String) :
    (0 ≤ calculate_title_similarity t1 t2 ∧ calculate_title_similarity t1 t2 ≤ 100) ∧
    (keywordSet (lowerL t1) = ∅ → calculate_title_similarity t1 t2 = 0) ∧
    (keywordSet (lowerL t1) ∩ keywordSet (lowerL t2) = ∅ → colorBonus t1 t2 = 0 →
      calculate_title_similarity t1 t2 = 0) := by
  unfold calculate_title_similarity
  by_cases h0 : t1 = "" ∨ t2 = ""
  · rw [if_pos h0]
    exact ⟨⟨le_refl 0, by norm_num⟩, fun _ => rfl, fun _ _ => rfl⟩
  · rw [if_neg h0]
    by_cases hk : keywordSet (lowerL t1) = ∅
    · rw [if_pos hk]
      exact ⟨⟨le_refl 0, by norm_num⟩, fun _ => rfl, fun _ _ => rfl⟩
    · rw [if_neg hk]
      refine ⟨⟨le_min (by norm_num) (le_max_left 0 _), min_le_left _ _⟩,
        fun h => absurd h hk, ?_⟩
      intro hi hb
      rw [hi, hb]
      norm_num

/-- C7 witness: concrete instantiations of the two conditional parts. -/
theorem c7_similarity_bounds_witness :
    (keywordSet (lowerL "The And Or") = ∅ ∧
      calculate_title_similarity "The And Or" "Anything" = 0) ∧
    (keywordSet (lowerL "Navy Hoodie") ∩ keywordSet (lowerL "Denim Cap") = ∅ ∧
      colorBonus "Navy Hoodie" "Denim Cap" = 0 ∧
      calculate_title_similarity "Navy Hoodie" "Denim Cap" = 0) :=
  ⟨⟨by decide, (c7_similarity_bounds "The And Or" "Anything").2.1 (by decide)⟩,
   ⟨by decide, by decide,
    (c7_similarity_bounds "Navy Hoodie" "Denim Cap").2.2 (by decide) (by decide)⟩⟩

/-! ## Claim C9: coverage threshold -/

/-- C9: a site is flagged below threshold exactly when its coverage ratio is
strictly below 0.50, and 3 found out of 6 products gives ratio exactly 1/2,
classified as meeting the threshold. -/
theorem c9_coverage_threshold (site : String) (rs : List SiteResults) :
    ((!siteMeetsThreshold site rs) = true ↔ coverageOf site rs < COVERAGE_THRESHOLD) ∧
    (rs.length = 6 → foundCount site rs = 3 →
      coverageOf site rs = COVERAGE_THRESHOLD ∧ siteMeetsThreshold site rs = true) := by
  constructor
  · unfold siteMeetsThreshold
    simp [not_le]
  · intro h1 h2
    have hco : coverageOf site rs = COVERAGE_THRESHOLD := by
      unfold coverageOf
      rw [h1, h2]
      norm_num [COVERAGE_THRESHOLD]
    refine ⟨hco, ?_⟩
    unfold siteMeetsThreshold
    rw [hco]
    simp

def exFoundRow : SiteResults := [("myntra", ⟨"https://www.myntra.com/1/buy", "499"⟩)]

def exNotFoundRow : SiteResults := [("myntra", notFoundSR)]

def exCoverageRows : List SiteResults :=
  [exFoundRow, exFoundRow, exFoundRow, exNotFoundRow, exNotFoundRow, exNotFoundRow]

/-! ## Claim C2: pass 2 runs exactly for unresolved sites and only touches
them -/

/-- C2: starting from a product's pass-1 results, (1) the pass-2 search is
attempted iff some allowed site still holds a "Not Found" URL, (2) pass-2
extraction is keyed exactly by the missing sites, (3) non-missing sites are
untouched, and (4) every site resolved in pass 1 holds the identical
`SiteResult` after pass 2. -/
theorem c2_pass2_runs_iff_and_frame (allowed : List String) (p : Product)
    (resp1 resp2 : Option (List Match)) (m : SiteResults)
    (hm : m = pass1Step allowed p resp1) :
    (pass2Attempted allowed p m = true ↔
      ∃ s sr, (s, sr) ∈ m ∧ sr.url = "Not Found") ∧
    (∀ vm2 : List Match,
      mapKeys (extract_product_info vm2 p.brand (missingSites allowed m) p.product_title) =
        missingSites allowed m) ∧
    (∀ s, s ∉ missingSites allowed m →
      alookup s (pass2Step allowed p m resp2) = alookup s m) ∧
    (∀ s sr, alookup s m = some sr → sr.url ≠ "Not Found" →
      alookup s (pass2Step allowed p m resp2) = some sr) := by
  subst hm
  refine ⟨⟨?_, ?_⟩, ?_, ?_, ?_⟩
  · intro hatt
    unfold pass2Attempted at hatt
    rw [Bool.and_eq_true] at hatt
    obtain ⟨hmiss, _⟩ := hatt
    have hne : missingSites allowed (pass1Step allowed p resp1) ≠ [] := by
      simpa using hmiss
    obtain ⟨s, hs⟩ := List.exists_mem_of_ne_nil _ hne
    obtain ⟨_, hlu⟩ := mem_missingSites allowed _ s hs
    unfold lookupUrl at hlu
    obtain ⟨sr, halo, hurl⟩ := Option.map_eq_some'.mp hlu
    exact ⟨s, sr, alookup_mem s _ sr halo, hurl⟩
  · rintro ⟨s, sr, hmem, hurl⟩
    by_cases himg : p.image = ""
    · unfold pass1Step at hmem
      rw [if_pos himg] at hmem
      cases hmem
    · cases resp1 with
      | none =>
        unfold pass1Step at hmem
        rw [if_neg himg] at hmem
        exact absurd hmem (List.not_mem_nil _)
      | some vm =>
        have hmem' : (s, sr) ∈ extract_product_info vm p.brand allowed p.product_title := by
          unfold pass1Step at hmem
          rw [if_neg himg] at hmem
          exact hmem
        obtain ⟨hsall, hsr⟩ :=
          mem_map_pair (selectedFor vm p.brand allowed p.product_title) allowed s sr hmem'
        have halo : alookup s (pass1Step allowed p (some vm)) = some sr := by
          have := alookup_extract vm p.brand allowed p.product_title s hsall
          unfold pass1Step
          rw [if_neg himg]
          rw [this, hsr]
        have hlu : lookupUrl s (pass1Step allowed p (some vm)) = some "Not Found" := by
          unfold lookupUrl
          rw [halo]
          simp [hurl]
        have hmiss := missingSites_of_notFound allowed _ s hsall hlu
        unfold pass2Attempted
        rw [Bool.and_eq_true]
        constructor
        · simpa using List.ne_nil_of_mem hmiss
        · simpa using himg
  · intro vm2
    exact mapKeys_extract vm2 p.brand _ p.product_title
  · intro s hs
    exact alookup_pass2Step_not_missing allowed p _ resp2 s hs
  · intro s sr halo hurl
    have hnot : s ∉ missingSites allowed (pass1Step allowed p resp1) := by
      intro hmemmiss
      obtain ⟨_, hlu⟩ := mem_missingSites allowed _ s hmemmiss
      unfold lookupUrl at hlu
      rw [halo] at hlu
      exact hurl (by simpa using hlu)
    rw [alookup_pass2Step_not_missing allowed p _ resp2 s hnot]
    exact halo

unseal Rat.mul Rat.add Rat.sub Rat.inv in
/-- C2 witness: pass 2 is attempted (slikk is missing) and the resolved
myntra entry is byte-identical after pass 2. -/
theorem c2_pass2_witness :
    pass2Attempted exAllowed exProduct (pass1Step exAllowed exProduct (some exMatches)) =
      true ∧
    alookup "myntra" (pass2Step exAllowed exProduct
        (pass1Step exAllowed exProduct (some exMatches)) (some exMatchesPass2)) =
      some ⟨"https://www.myntra.com/10001/buy", "Price not displayed in listing"⟩ :=
  have h := c2_pass2_runs_iff_and_frame exAllowed exProduct (some exMatches)
    (some exMatchesPass2) _ rfl
  ⟨h.1.mpr ⟨"slikk", notFoundSR, by decide, rfl⟩,
   h.2.2.2 "myntra" ⟨"https://www.myntra.com/10001/buy", "Price not displayed in listing"⟩
     (by decide) (by decide)⟩

/-! ## Claim C10: the CSV price column never shows the raw sentinel -/

/-- The CSV price cell of any mapping satisfying the url/price invariant:
never the raw sentinel; "Product not available on site" for unresolved
sites; "Check site for price" when a found listing had no price. -/
theorem priceCell_spec (m : SiteResults) (hinv : resultsInv m) (site : String) :
    sitePriceCell site m ≠ PRICE_SENTINEL ∧
    (siteUrlCell site m = "Not Found" →
      sitePriceCell site m = "Product not available on site") ∧
    (∀ sr, alookup site m = some sr → sr.url ≠ "Not Found" → sr.price = PRICE_SENTINEL →
      sitePriceCell site m = "Check site for price") := by
  cases halo : alookup site m with
  | none =>
    have h1 : sitePriceCell site m = "Product not available on site" := by
      unfold sitePriceCell
      rw [halo]
    exact ⟨by rw [h1]; decide, fun _ => h1, fun sr hsr => Option.noConfusion hsr⟩
  | some sr =>
    have hmem := alookup_mem site m sr halo
    have hinv' : sr.url = "Not Found" → sr.price = "Product not available on site" :=
      hinv (site, sr) hmem
    have hurl_eq : siteUrlCell site m = sr.url := by
      unfold siteUrlCell
      rw [halo]
    have hcell : sitePriceCell site m =
        (if sr.url ≠ "Not Found" ∧ sr.price = PRICE_SENTINEL then "Check site for price"
         else sr.price) := by
      unfold sitePriceCell
      rw [halo]
    refine ⟨?_, ?_, ?_⟩
    · rw [hcell]
      by_cases hc : sr.url ≠ "Not Found" ∧ sr.price = PRICE_SENTINEL
      · rw [if_pos hc]; decide
      · rw [if_neg hc]
        by_cases hnf : sr.url = "Not Found"
        · rw [hinv' hnf]; decide
        · exact fun hp => hc ⟨hnf, hp⟩
    · intro hu
      rw [hurl_eq] at hu
      rw [hcell, if_neg (fun hc => hc.1 hu), hinv' hu]
    · intro sr2 hsr2 hne hp
      cases hsr2
      rw [hcell, if_pos ⟨hne, hp⟩]

/-- C10: in every serialized row built from a product's final mapping, the
price column never carries the raw "Price not displayed in listing"
sentinel: found-but-priceless listings show "Check site for price" and
unresolved sites show "Product not available on site". -/
theorem c10_price_sentinel_rewrite (allowed : List String) (p : Product)
    (resp1 resp2 : Option (List Match)) (site : String) :
    sitePriceCell site (finalMapping allowed p resp1 resp2) ≠ PRICE_SENTINEL ∧
    (siteUrlCell site (finalMapping allowed p resp1 resp2) = "Not Found" →
      sitePriceCell site (finalMapping allowed p resp1 resp2) =
        "Product not available on site") ∧
    (∀ sr, alookup site (finalMapping allowed p resp1 resp2) = some sr →
      sr.url ≠ "Not Found" → sr.price = PRICE_SENTINEL →
      sitePriceCell site (finalMapping allowed p resp1 resp2) = "Check site for price") :=
  priceCell_spec (finalMapping allowed p resp1 resp2)
    (resultsInv_finalMapping allowed p resp1 resp2) site

unseal Rat.mul Rat.add Rat.sub Rat.inv in
/-- C10 witness: the myntra listing was found with no price in its payload,
and its CSV price cell reads "Check site for price". -/
theorem c10_price_sentinel_rewrite_witness :
    sitePriceCell "myntra" (finalMapping exAllowed exProduct (some exMatches) none) =
      "Check site for price" :=
  (c10_price_sentinel_rewrite exAllowed exProduct (some exMatches) none "myntra").2.2
    ⟨"https://www.myntra.com/10001/buy", PRICE_SENTINEL⟩ (by decide) (by decide) (by decide)

/-! ## Claim C1: result key set -/

/-- C1 counterexample: a product skipped for lack of an image carries an
empty per-site mapping, not one keyed by its (non-empty) allowed-site
set. -/
theorem c1_skipped_product_empty_mapping :
    mapKeys (finalMapping exAllowed exNoImageProduct none none) = [] ∧
    exAllowed = ["myntra", "slikk", "bewakoof"] ∧
    mapKeys (finalMapping exAllowed exNoImageProduct none none) ≠ exAllowed := by decide

/-- C1 (amended): for a product with a non-empty image whose pass-1
provider call succeeded, the mapping's key set is exactly the allowed-site
list through both passes; a skipped/failed product's empty mapping is
serialized with one "Not Found"/"Product not available on site" pair per
allowed site by `create_csv_row`. -/
theorem c1_amended_keyset (allowed : List String) (p : Product) (vm : List Match)
    (resp2 : Option (List Match)) (h : p.image ≠ "") :
    mapKeys (finalMapping allowed p (some vm) resp2) = allowed ∧
    (∀ site ∈ allowed, siteUrlCell site ([] : SiteResults) = "Not Found" ∧
      sitePriceCell site ([] : SiteResults) = "Product not available on site") := by
  constructor
  · unfold finalMapping
    rw [mapKeys_pass2Step]
    unfold pass1Step
    rw [if_neg h]
    exact mapKeys_extract vm p.brand allowed p.product_title
  · intro site _
    exact ⟨rfl, rfl⟩

/-- C1 witness: the amended key-set equality at a concrete product. -/
theorem c1_amended_keyset_witness :
    mapKeys (finalMapping exAllowed exProduct (some exMatches) none) = exAllowed ∧
    siteUrlCell "bewakoof" ([] : SiteResults) = "Not Found" :=
  ⟨(c1_amended_keyset exAllowed exProduct exMatches none (by decide)).1,
   ((c1_amended_keyset exAllowed exProduct exMatches none (by decide)).2 "bewakoof"
     (by decide)).1⟩

/-! ## Claim C3: failed pass-1 responses opt the product out of pass 2 -/

/-- C3 (code bug evidence): with a non-empty image and a failed (null)
pass-1 response the mapping is left empty, the pass-2 missing-site list
evaluates to `[]`, and pass 2 is never attempted; yet the coverage report
counts the very same empty mapping as "found" while the CSV writes "Not
Found" for it. -/
theorem c3_failed_response_skips_pass2 :
    pass1Step exAllowed exProduct none = [] ∧
    missingSites exAllowed (pass1Step exAllowed exProduct none) = [] ∧
    pass2Attempted exAllowed exProduct (pass1Step exAllowed exProduct none) = false ∧
    exProduct.image ≠ "" ∧
    siteFoundIn "myntra" (pass1Step exAllowed exProduct none) = true ∧
    siteUrlCell "myntra" (pass1Step exAllowed exProduct none) = "Not Found" := by decide

/-! ## Claims C5 and C6: candidate selection -/

/-- C5: at a brand-owned (non-primary) site with at least one surviving
candidate, the selected entry is the first candidate maximizing
`similarity - visual_rank * 5` in evaluation order. -/
theorem c5_brand_site_selection (vm : List Match) (tb ot site : String)
    (allowed : List String) (hmem : site ∈ allowed) (hnp : site ∉ PRIMARY_SITES)
    (hne : candidatesFor vm tb allowed ot site ≠ []) :
    ∃ (i : ℕ) (best : Candidate),
      (candidatesFor vm tb allowed ot site)[i]? = some best ∧
      alookup site (extract_product_info vm tb allowed ot) = some ⟨best.url, best.price⟩ ∧
      (∀ c ∈ candidatesFor vm tb allowed ot site,
        brandSiteScore c ≤ brandSiteScore best) ∧
      (∀ j : ℕ, j < i → ∀ d, (candidatesFor vm tb allowed ot site)[j]? = some d →
        brandSiteScore d < brandSiteScore best) := by
  obtain ⟨i, b, h1, h2, h3, h4⟩ := pyMaxBy_spec brandSiteScore _ hne
  refine ⟨i, b, h1, ?_, h3, h4⟩
  rw [alookup_extract vm tb allowed ot site hmem]
  unfold selectedFor
  rw [if_neg hnp, h2]

unseal Rat.mul Rat.add Rat.sub Rat.inv in
/-- C5 witness: the brand-site selection property at a concrete match
list. -/
theorem c5_brand_site_selection_witness :
    ∃ (i : ℕ) (best : Candidate),
      (candidatesFor exMatches "Bewakoof" exAllowed "Men Navy Oversized Hoodie"
        "bewakoof")[i]? = some best ∧
      alookup "bewakoof" (extract_product_info exMatches "Bewakoof" exAllowed
        "Men Navy Oversized Hoodie") = some ⟨best.url, best.price⟩ ∧
      (∀ c ∈ candidatesFor exMatches "Bewakoof" exAllowed "Men Navy Oversized Hoodie"
        "bewakoof", brandSiteScore c ≤ brandSiteScore best) ∧
      (∀ j : ℕ, j < i → ∀ d, (candidatesFor exMatches "Bewakoof" exAllowed
        "Men Navy Oversized Hoodie" "bewakoof")[j]? = some d →
        brandSiteScore d < brandSiteScore best) :=
  c5_brand_site_selection exMatches "Bewakoof" "Men Navy Oversized Hoodie" "bewakoof"
    exAllowed (by decide) (by decide) (by decide)

/-- C6: at a primary marketplace with at least one surviving candidate, the
selected entry is the first candidate of minimum visual rank, regardless of
similarity scores. -/
theorem c6_marketplace_selection (vm : List Match) (tb ot site : String)
    (allowed : List String) (hmem : site ∈ allowed) (hp : site ∈ PRIMARY_SITES)
    (hne : candidatesFor vm tb allowed ot site ≠ []) :
    ∃ (i : ℕ) (best : Candidate),
      (candidatesFor vm tb allowed ot site)[i]? = some best ∧
      alookup site (extract_product_info vm tb allowed ot) = some ⟨best.url, best.price⟩ ∧
      (∀ c ∈ candidatesFor vm tb allowed ot site, best.visualRank ≤ c.visualRank) ∧
      (∀ j : ℕ, j < i → ∀ d, (candidatesFor vm tb allowed ot site)[j]? = some d →
        best.visualRank < d.visualRank) := by
  obtain ⟨i, b, h1, h2, h3, h4⟩ := pyMinBy_spec (fun c => c.visualRank) _ hne
  refine ⟨i, b, h1, ?_, h3, h4⟩
  rw [alookup_extract vm tb allowed ot site hmem]
  unfold selectedFor
  rw [if_pos hp, h2]

unseal Rat.mul Rat.add Rat.sub Rat.inv in
/-- C6 witness: the marketplace selection property at a concrete match list
with two myntra candidates. -/
theorem c6_marketplace_selection_witness :
    ∃ (i : ℕ) (best : Candidate),
      (candidatesFor exMatches "Bewakoof" exAllowed "Men Navy Oversized Hoodie"
        "myntra")[i]? = some best ∧
      alookup "myntra" (extract_product_info exMatches "Bewakoof" exAllowed
        "Men Navy Oversized Hoodie") = some ⟨best.url, best.price⟩ ∧
      (∀ c ∈ candidatesFor exMatches "Bewakoof" exAllowed "Men Navy Oversized Hoodie"
        "myntra", best.visualRank ≤ c.visualRank) ∧
      (∀ j : ℕ, j < i → ∀ d, (candidatesFor exMatches "Bewakoof" exAllowed
        "Men Navy Oversized Hoodie" "myntra")[j]? = some d →
        best.visualRank < d.visualRank) :=
  c6_marketplace_selection exMatches "Bewakoof" "Men Navy Oversized Hoodie" "myntra"
    exAllowed (by decide) (by decide) (by decide)

/-! ## Claim C8: bewakoof slug rules -/

/-- Any slug ending in `-hoodies-16` matches the category-page pattern
`hoodies-\d{1,3}$`. -/
theorem keywordIdPattern_hoodies16 (t : Chars) :
    keywordIdPattern (strL "hoodies") (t ++ strL "-hoodies-16") = true := by
  have hsplit : strL "-hoodies-16" = strL "-hoodies-" ++ strL "16" := by decide
  have hA : t ++ strL "-hoodies-16" = (t ++ strL "-hoodies-") ++ strL "16" := by
    rw [hsplit, List.append_assoc]
  have h16 : (strL "16").length = 2 := rfl
  have hidx : ((t ++ strL "-hoodies-") ++ strL "16").length - 2 = (t ++ strL "-hoodies-").length := by
    rw [List.length_append _ (strL "16"), h16]
    omega
  unfold keywordIdPattern
  apply List.any_eq_true.mpr
  refine ⟨2, by decide, ?_⟩
  rw [hA, hidx]
  have e1 : decide (2 ≤ ((t ++ strL "-hoodies-") ++ strL "16").length) = true := by
    apply decide_eq_true
    rw [List.length_append _ (strL "16"), h16]
    omega
  have e2 : (((t ++ strL "-hoodies-") ++ strL "16").drop (t ++ strL "-hoodies-").length).all
      Char.isDigit = true := by
    rw [List.drop_left]
    decide
  have e3 : (strL "hoodies" ++ strL "-").isSuffixOf
      (((t ++ strL "-hoodies-") ++ strL "16").take (t ++ strL "-hoodies-").length) = true := by
    rw [List.take_left]
    apply (List.isSuffixOf_iff_suffix).mpr
    refine ⟨t ++ strL "-", ?_⟩
    have : strL "-hoodies-" = strL "-" ++ (strL "hoodies" ++ strL "-") := by decide
    rw [this, ← List.append_assoc]
    simp [List.append_assoc]
  rw [e1, e2, e3]
  rfl

/-- C8: every bewakoof `/p/` URL whose slug ends in `-hoodies-16` is
rejected, and the product URL with slug `mens-navy-oversized-hoodie-102345`
(five hyphen-separated words, 6-digit trailing id) is accepted. -/
theorem c8_bewakoof_slug_rules :
    (∀ url : String,
        containsL (strL "bewakoof.com") (lowerL url) = true →
        containsL (strL "/p/") (lowerL url) = true →
        (∃ t : Chars, bewakoofSlug (lowerL url) = t ++ strL "-hoodies-16") →
        is_valid_product_url url = false) ∧
    is_valid_product_url "https://www.bewakoof.com/p/mens-navy-oversized-hoodie-102345" = true := by
  constructor
  · rintro url h1 h2 ⟨t, ht⟩
    have hcat : categoryPageCheck (bewakoofSlug (lowerL url)) = true := by
      unfold categoryPageCheck
      apply List.any_eq_true.mpr
      refine ⟨"hoodies", by decide, ?_⟩
      rw [ht]
      exact keywordIdPattern_hoodies16 t
    by_cases hg : INVALID_PATTERNS.any (fun p => containsL (strL p) (lowerL url)) = true
    · simp only [is_valid_product_url]
      simp [hg]
    · simp only [is_valid_product_url]
      simp [hg, h1, h2, hcat]
  · decide

/-- C8 witness: the universal rejection applied to the spec's concrete
category-page URL. -/
theorem c8_bewakoof_slug_rules_witness :
    is_valid_product_url "https://www.bewakoof.com/p/blue-hoodies-16" = false :=
  c8_bewakoof_slug_rules.1 "https://www.bewakoof.com/p/blue-hoodies-16" (by decide) (by decide)
    ⟨strL "blue", by decide⟩

/-- C9 witness: six products, a site found on exactly three of them. -/
theorem c9_coverage_threshold_witness :
    exCoverageRows.length = 6 ∧ foundCount "myntra" exCoverageRows = 3 ∧
    coverageOf "myntra" exCoverageRows = COVERAGE_THRESHOLD ∧
    siteMeetsThreshold "myntra" exCoverageRows = true := by
  have h := (c9_coverage_threshold "myntra" exCoverageRows).2 (by decide) (by decide)
  exact ⟨by decide, by decide, h.1, h.2⟩

end ProductFinder
